import Mathlib

/-!
Shallow embedding of the cookie-cutter generation pipeline
(`utils/meshGenerator` = `src/unnamed/part_000`, `components/Viewer3D.tsx`,
types from `src/unnamed/part_002`).

Machine numbers are modelled as exact rationals.  A solid geometry is
modelled as a syntax tree of the THREE.js constructions the source uses
(extrusion of 2D shapes, box, cylinder) together with the transforms it
applies (rotateX by pi/2, translate, scale); its axis-aligned bounding box
is the derived semantics the normalization code reads back
(`computeBoundingBox`).  2D shapes are an outer path plus hole paths; the
two path forms the source builds are point polygons (traced outlines and
the moveTo/lineTo rectangle ring) and full-circle arcs (`absarc`).
-/

namespace CookieBot

/-- 2D point in tracing / shape space. -/
abbrev Pt := ℚ × ℚ

/-- `shape` field of `CutterSettings` (`types.ts`). -/
inductive ShapeKind
  | rectangle
  | circle
  | outline
deriving DecidableEq, Repr

/-- `CutterSettings` from `types.ts`; numbers become exact rationals. -/
structure CutterSettings where
  width : ℚ
  height : ℚ
  baseThickness : ℚ
  detailHeight : ℚ
  invert : Bool
  threshold : ℚ
  smoothing : ℚ
  shape : ShapeKind
  frameThickness : ℚ
  frameHeight : ℚ
deriving DecidableEq, Repr

/-- A 2D path: either a polygon given by its point list (traced contours,
moveTo/lineTo rings) or a full circle (`absarc(cx, cy, r, 0, 2*pi)`). -/
inductive Path2D
  | poly (pts : List Pt)
  | circle (cx cy r : ℚ)
deriving DecidableEq, Repr

/-- A THREE.Shape: an outer path plus hole paths. -/
structure Shape2D where
  outer : Path2D
  holes : List Path2D
deriving DecidableEq, Repr

/-- `THREE.Shape.getPoints()` on the outer path.  Every shape whose points
the modelled pipeline reads (the traced silhouette handed to
`createCutterFrame`) is a polygon; sampling a circle arc into points is
library behaviour never exercised by the modelled calls, so the circle
case returns no points. -/
def Path2D.getPoints : Path2D → List Pt
  | Path2D.poly pts => pts
  | Path2D.circle _ _ _ => []

/-- Axis-aligned 2D bounding box. -/
structure BB2 where
  minX : ℚ
  maxX : ℚ
  minY : ℚ
  maxY : ℚ
deriving DecidableEq, Repr

/-- Axis-aligned 3D bounding box (`THREE.Box3` of a geometry's vertices). -/
structure BB3 where
  minX : ℚ
  maxX : ℚ
  minY : ℚ
  maxY : ℚ
  minZ : ℚ
  maxZ : ℚ
deriving DecidableEq, Repr

/-- Bounding box of a single point. -/
def pointBB (p : Pt) : BB2 := ⟨p.1, p.1, p.2, p.2⟩

/-- Union of two 2D bounding boxes. -/
def merge2 (a b : BB2) : BB2 :=
  ⟨min a.minX b.minX, max a.maxX b.maxX, min a.minY b.minY, max a.maxY b.maxY⟩

/-- Bounding box of a point list (`none` when there are no points). -/
def ptsBB2 : List Pt → Option BB2
  | [] => none
  | p :: t => some (t.foldl (fun b q => merge2 b (pointBB q)) (pointBB p))

/-- Union of two optional bounding boxes. -/
def mergeO : Option BB2 → Option BB2 → Option BB2
  | none, b => b
  | some a, none => some a
  | some a, some b => some (merge2 a b)

/-- Bounding box of one path.  A full circle of radius `r` spans
`[c - |r|, c + |r|]` on both axes (the 64-segment sampling the source uses
hits the four axis extremes exactly). -/
def Path2D.bb2 : Path2D → Option BB2
  | Path2D.poly pts => ptsBB2 pts
  | Path2D.circle cx cy r => some ⟨cx - |r|, cx + |r|, cy - |r|, cy + |r|⟩

/-- Bounding box of a shape: outer path united with its holes (extrusion
emits vertices for hole walls as well). -/
def Shape2D.bb2 (sh : Shape2D) : Option BB2 :=
  mergeO sh.outer.bb2 (sh.holes.foldl (fun acc h => mergeO acc h.bb2) none)

/-- Bounding box of a shape list. -/
def shapesBB2 (l : List Shape2D) : Option BB2 :=
  l.foldl (fun acc sh => mergeO acc sh.bb2) none

/-- Solid geometry as the syntax of THREE.js constructions the source
performs.  `extrudeG shapes d` is `ExtrudeGeometry(shapes, {depth: d,
bevelEnabled: false, steps: 1})`; `boxG`/`cylinderG` are the box and
cylinder primitives; `rotX90` is `rotateX(Math.PI / 2)`;
`translateG`/`scaleG` are the in-place transforms; `emptyG` is
`new THREE.BufferGeometry()`. -/
inductive Geometry
  | emptyG
  | extrudeG (shapes : List Shape2D) (depth : ℚ)
  | boxG (w h d : ℚ)
  | cylinderG (rTop rBottom h : ℚ) (seg : ℕ)
  | rotX90 (g : Geometry)
  | translateG (dx dy dz : ℚ) (g : Geometry)
  | scaleG (sx sy sz : ℚ) (g : Geometry)
deriving DecidableEq, Repr

/-- Bounding box of a geometry (`computeBoundingBox`), derived from the
vertex sets of the THREE.js constructions: an extrusion has vertices at
the cap planes `z = 0` and `z = depth` over the shape points; a box is
centred at the origin; a cylinder runs along the Y axis with radial
extremes at `max |rTop| |rBottom|`; `rotateX(pi/2)` maps a vertex
`(x, y, z)` to `(x, -z, y)`. -/
def Geometry.bbox : Geometry → Option BB3
  | Geometry.emptyG => none
  | Geometry.extrudeG shapes d =>
      (shapesBB2 shapes).map fun b =>
        ⟨b.minX, b.maxX, b.minY, b.maxY, min 0 d, max 0 d⟩
  | Geometry.boxG w h d =>
      some ⟨min (-(w/2)) (w/2), max (-(w/2)) (w/2),
            min (-(h/2)) (h/2), max (-(h/2)) (h/2),
            min (-(d/2)) (d/2), max (-(d/2)) (d/2)⟩
  | Geometry.cylinderG rT rB h _ =>
      some ⟨-(max |rT| |rB|), max |rT| |rB|,
            min (-(h/2)) (h/2), max (-(h/2)) (h/2),
            -(max |rT| |rB|), max |rT| |rB|⟩
  | Geometry.rotX90 g =>
      g.bbox.map fun b => ⟨b.minX, b.maxX, -b.maxZ, -b.minZ, b.minY, b.maxY⟩
  | Geometry.translateG dx dy dz g =>
      g.bbox.map fun b =>
        ⟨b.minX + dx, b.maxX + dx, b.minY + dy, b.maxY + dy, b.minZ + dz, b.maxZ + dz⟩
  | Geometry.scaleG sx sy sz g =>
      g.bbox.map fun b =>
        ⟨min (sx * b.minX) (sx * b.maxX), max (sx * b.minX) (sx * b.maxX),
         min (sy * b.minY) (sy * b.maxY), max (sy * b.minY) (sy * b.maxY),
         min (sz * b.minZ) (sz * b.maxZ), max (sz * b.minZ) (sz * b.maxZ)⟩

/-- Planar width `boundingBox.max.x - boundingBox.min.x`; `0` when the
geometry has no vertices. -/
def Geometry.bwidth (g : Geometry) : ℚ :=
  match g.bbox with
  | none => 0
  | some b => b.maxX - b.minX

/-- Planar height `boundingBox.max.y - boundingBox.min.y`; `0` when the
geometry has no vertices. -/
def Geometry.bheight (g : Geometry) : ℚ :=
  match g.bbox with
  | none => 0
  | some b => b.maxY - b.minY

/-- `boundingBox.getCenter` ( `(min + max) / 2`, the zero vector for an
empty box). -/
def Geometry.bcenter (g : Geometry) : ℚ × ℚ × ℚ :=
  match g.bbox with
  | none => (0, 0, 0)
  | some b => ((b.minX + b.maxX) / 2, (b.minY + b.maxY) / 2, (b.minZ + b.maxZ) / 2)

/-- The build-axis interval `[minZ, maxZ]` a geometry occupies. -/
def Geometry.zInterval (g : Geometry) : Option (ℚ × ℚ) :=
  g.bbox.map fun b => (b.minZ, b.maxZ)

/-- Whether the geometry denotes a mesh with no vertices at all (an
"empty mesh"). -/
def Path2D.pointFree : Path2D → Bool
  | Path2D.poly pts => pts.isEmpty
  | Path2D.circle _ _ _ => false

/-- Whether a shape contributes no vertices. -/
def Shape2D.pointFree (sh : Shape2D) : Bool :=
  sh.outer.pointFree && sh.holes.all Path2D.pointFree

/-- Whether the built geometry is an empty mesh (no vertices). -/
def Geometry.meshIsEmpty : Geometry → Bool
  | Geometry.emptyG => true
  | Geometry.extrudeG shapes _ => shapes.all Shape2D.pointFree
  | Geometry.boxG _ _ _ => false
  | Geometry.cylinderG _ _ _ _ => false
  | Geometry.rotX90 g => g.meshIsEmpty
  | Geometry.translateG _ _ _ g => g.meshIsEmpty
  | Geometry.scaleG _ _ _ g => g.meshIsEmpty

/-- Signed-area summand of one directed polygon edge. -/
def cross2 (a b : Pt) : ℚ := a.1 * b.2 - b.1 * a.2

/-- `THREE.ShapeUtils.area`: half the cyclic sum of edge cross products. -/
def shoelace (pts : List Pt) : ℚ :=
  (List.zipWith cross2 pts (pts.rotate 1)).sum / 2

/-- Unsigned contour area `Math.abs(THREE.ShapeUtils.area(shape.getPoints()))`
(`generateSilhouetteShape`, meshGenerator line 127). -/
def uarea (sh : Shape2D) : ℚ := |shoelace sh.outer.getPoints|

/-- One step of the largest-area scan of `generateSilhouetteShape`
(meshGenerator lines 124-132): update the best shape when the area
strictly exceeds the running maximum. -/
def selStep (acc : Shape2D × ℚ) (sh : Shape2D) : Shape2D × ℚ :=
  if acc.2 < uarea sh then (sh, uarea sh) else acc

/-- Largest-area contour selection of `generateSilhouetteShape`
(meshGenerator lines 120-134): `null` for an empty trace, otherwise a fold
starting from `bestShape = shapes[0]`, `maxArea = 0`. -/
def selectLargestShape (shapes : List Shape2D) : Option Shape2D :=
  match shapes with
  | [] => none
  | s0 :: _ => some ((shapes.foldl selStep (s0, 0)).1)

/-- Close a contour: append the first point when the last differs from it
(`createCutterFrame`, meshGenerator lines 167-170). -/
def closeContour (pts : List Pt) : List Pt :=
  match pts with
  | [] => []
  | h :: t =>
      if (h :: t).getLast (List.cons_ne_nil h t) = h then h :: t
      else (h :: t) ++ [h]

/-- Arithmetic-mean centroid of a point list (`createCutterFrame`,
meshGenerator lines 177-180; the closing duplicate point participates). -/
def centroidOf (pts : List Pt) : Pt :=
  ((pts.map Prod.fst).sum / pts.length, (pts.map Prod.snd).sum / pts.length)

/-- Scale a point toward a centre (`createCutterFrame`, meshGenerator
lines 183-188): `c + (p - c) * k` on each axis. -/
def scaleAbout (c : Pt) (k : ℚ) (p : Pt) : Pt :=
  (c.1 + (p.1 - c.1) * k, c.2 + (p.2 - c.2) * k)

/-- `createBasePlate` (meshGenerator lines 137-161). -/
def createBasePlate (s : CutterSettings) (outlineShape : Option Shape2D) : Geometry :=
  match s.shape, outlineShape with
  | ShapeKind.outline, some sh =>
      Geometry.translateG 0 0 (-s.baseThickness)
        (Geometry.extrudeG [sh] s.baseThickness)
  | sk, _ =>
      if sk = ShapeKind.rectangle then
        Geometry.translateG 0 0 (-(s.baseThickness / 2))
          (Geometry.boxG s.width s.height s.baseThickness)
      else
        Geometry.translateG 0 0 (-(s.baseThickness / 2))
          (Geometry.rotX90
            (Geometry.cylinderG (s.width / 2) (s.width / 2) s.baseThickness 64))

/-- `createCutterFrame` (meshGenerator lines 163-236). -/
def createCutterFrame (s : CutterSettings) (outlineShape : Option Shape2D) : Geometry :=
  let totalHeight := s.frameHeight + s.baseThickness
  match s.shape, outlineShape with
  | ShapeKind.outline, some sh =>
      let points := closeContour sh.outer.getPoints
      let scale := max (0.5 : ℚ) (1 - 2 * s.frameThickness / s.width)
      let c := centroidOf points
      let holePoints := points.map (scaleAbout c scale)
      Geometry.translateG 0 0 (-s.baseThickness)
        (Geometry.extrudeG [⟨Path2D.poly points, [Path2D.poly holePoints]⟩] totalHeight)
  | sk, _ =>
      let w := s.width / 2
      let h := s.height / 2
      let t := s.frameThickness
      if sk = ShapeKind.rectangle then
        Geometry.translateG 0 0 (-s.baseThickness)
          (Geometry.extrudeG
            [⟨Path2D.poly [(-w - t, -h - t), (w + t, -h - t), (w + t, h + t),
                           (-w - t, h + t), (-w - t, -h - t)],
              [Path2D.poly [(-w, -h), (-w, h), (w, h), (w, -h), (-w, -h)]]⟩]
            totalHeight)
      else
        Geometry.translateG 0 0 (-s.baseThickness)
          (Geometry.extrudeG
            [⟨Path2D.circle 0 0 (w + t), [Path2D.circle 0 0 w]⟩] totalHeight)

/-- Solid-construction stage of `createStampGeometry` (meshGenerator lines
281-291), taking the contour set the relief trace produced: an empty trace
yields `new THREE.BufferGeometry()`, otherwise the multi-shape extrusion by
`detailHeight` followed by `scale(1, -1, 1)`. -/
def createStampGeometry (shapes : List Shape2D) (s : CutterSettings) : Geometry :=
  if shapes = [] then Geometry.emptyG
  else Geometry.scaleG 1 (-1) 1 (Geometry.extrudeG shapes s.detailHeight)

/-- Modelled from the spec: `flipGeometryY` is imported by `Viewer3D.tsx`
from `utils/meshGenerator` but its definition is not among the sources;
spec section 4.6(c) describes it as flipping (negating) the Y coordinate of
the geometry once, which on vertex sets is the scale `(1, -1, 1)`. -/
def flipGeometryY (g : Geometry) : Geometry := Geometry.scaleG 1 (-1) 1 g

/-- Geometry part of the `generate` effect in `SceneContent`
(`Viewer3D.tsx` lines 70-119), taking the stamp geometry and the traced
silhouette (when requested) as inputs.  Returns
`(stampGeo, frameGeo, baseGeo)` as finally set into state. -/
def sceneContentLayout (s : CutterSettings) (stampGeo : Geometry)
    (sil : Option Shape2D) : Geometry × Geometry × Geometry :=
  let stampW := stampGeo.bwidth
  let stampH := stampGeo.bheight
  if s.shape = ShapeKind.outline then
    match sil with
    | some sh =>
        let frameGeo := flipGeometryY (createCutterFrame s (some sh))
        let baseGeo := flipGeometryY (createBasePlate s (some sh))
        let frameW := frameGeo.bwidth
        let finalGroupScale := if 0 < frameW then s.width / frameW else 1
        if finalGroupScale ≠ 1 then
          (Geometry.scaleG finalGroupScale finalGroupScale 1 stampGeo,
           Geometry.scaleG finalGroupScale finalGroupScale 1 frameGeo,
           Geometry.scaleG finalGroupScale finalGroupScale 1 baseGeo)
        else (stampGeo, frameGeo, baseGeo)
    | none =>
        (stampGeo,
         createCutterFrame { s with shape := ShapeKind.rectangle } none,
         createBasePlate { s with shape := ShapeKind.rectangle } none)
  else
    let padding := s.width * 0.05
    let availableW := s.width - padding * 2
    let availableH := s.height - padding * 2
    let fitScale := min (availableW / stampW) (availableH / stampH)
    let scaled := Geometry.scaleG fitScale fitScale 1 stampGeo
    let ctr := scaled.bcenter
    (Geometry.translateG (-ctr.1) (-ctr.2.1) 0 scaled,
     createCutterFrame s none,
     createBasePlate s none)

/-- A canvas pixel: grayscale value and alpha, each on the 0-255 scale. -/
structure Pix where
  v : ℚ
  a : ℚ
deriving DecidableEq, Repr

/-- An image is a pixel function over integer coordinates. -/
abbrev Img := ℕ × ℕ → Pix

/-- An abstract blur operator on alpha planes (the `shadowBlur` falloff of
the 2D canvas; the silhouette-expansion facts hold for every such
operator). -/
abbrev BlurOp := (ℕ × ℕ → ℚ) → (ℕ × ℕ → ℚ)

/-- `fillRect` white then `drawImage(img)` (`generateSilhouetteShape`,
meshGenerator lines 52-54): source-over of the image on an opaque white
canvas, producing an opaque canvas. -/
def drawOverWhite (img : Img) : Img := fun p =>
  ⟨((img p).v * (img p).a + 255 * (255 - (img p).a)) / 255, 255⟩

/-- Pass 1 of `generateSilhouetteShape` (meshGenerator lines 60-67):
average luminance below 200 becomes solid black content, else white;
alpha stays opaque. -/
def binarizeBase (img : Img) : Img := fun p =>
  ⟨if (drawOverWhite img p).v < 200 then 0 else 255, 255⟩

/-- Canvas source-over compositing of `src` onto `dst`. -/
def sourceOver (src dst : Img) : Img := fun p =>
  ⟨((src p).v * (src p).a + (dst p).v * (255 - (src p).a)) / 255,
   (src p).a + (dst p).a * (255 - (src p).a) / 255⟩

/-- The black drop shadow a draw call casts: black, with alpha the blur of
the source's alpha plane. -/
def shadowOf (blur : BlurOp) (src : Img) : Img := fun p =>
  ⟨0, blur (fun q => (src q).a) p⟩

/-- One `drawImage` with `shadowColor = black`, `shadowBlur` set
(meshGenerator lines 83-89): the shadow is composited first, then the
image itself over it. -/
def drawImageWithShadow (blur : BlurOp) (dst src : Img) : Img :=
  sourceOver src (sourceOver (shadowOf blur src) dst)

/-- The opaque white temp canvas (meshGenerator lines 77-78). -/
def whiteCanvas : Img := fun _ => ⟨255, 255⟩

/-- Pass 2 of `generateSilhouetteShape` (meshGenerator lines 70-89): three
shadowed draws of the binarized canvas onto the white temp canvas. -/
def expandedCanvas (blur : BlurOp) (img : Img) : Img :=
  let base := binarizeBase img
  drawImageWithShadow blur
    (drawImageWithShadow blur (drawImageWithShadow blur whiteCanvas base) base) base

/-- Pass 3 of `generateSilhouetteShape` (meshGenerator lines 92-106):
re-threshold the blurred canvas at the looser cutoff 240; `true` means the
pixel is content of the expanded mask. -/
def expandedMask (blur : BlurOp) (img : Img) (p : ℕ × ℕ) : Bool :=
  decide ((expandedCanvas blur img p).v < 240)

/-- Content classification of the base (pass 1) mask: a pixel is content
exactly when the binarized value is solid black. -/
def baseMask (img : Img) (p : ℕ × ℕ) : Bool :=
  decide ((binarizeBase img p).v = 0)

/-- Relief binarization of `createStampGeometry` (meshGenerator lines
257-266): a pixel of average luminance `avg` is solid iff `avg < threshold`,
flipped by the `invert` flag. -/
def classifyStampPixel (s : CutterSettings) (r g b : ℕ) : Bool :=
  let avg : ℚ := ((r : ℚ) + (g : ℚ) + (b : ℚ)) / 3
  let isDark := decide (avg < s.threshold)
  if s.invert then !isDark else isDark

/-- Well-formedness of a 2D bounding box: min bounds below max bounds. -/
def BB2.wf (b : BB2) : Prop := b.minX ≤ b.maxX ∧ b.minY ≤ b.maxY

/-- Well-formedness of a 3D bounding box: min bounds below max bounds. -/
def BB3.wf (b : BB3) : Prop := b.minX ≤ b.maxX ∧ b.minY ≤ b.maxY ∧ b.minZ ≤ b.maxZ

/-- Effect of the planar scale `(k, k, 1)` on a bounding box. -/
def scaleBB (k : ℚ) (b : BB3) : BB3 :=
  ⟨min (k * b.minX) (k * b.maxX), max (k * b.minX) (k * b.maxX),
   min (k * b.minY) (k * b.maxY), max (k * b.minY) (k * b.maxY),
   b.minZ, b.maxZ⟩

/-- Sample rectangle-shape settings (the app's defaults with
`shape = rectangle`). -/
def csR : CutterSettings := ⟨90, 90, 2, 3.5, false, 160, 0, ShapeKind.rectangle, 2, 8⟩

/-- Sample outline-shape settings with requested width 8. -/
def csO : CutterSettings := ⟨8, 8, 2, 3.5, false, 160, 0, ShapeKind.outline, 2, 8⟩

/-- Sample settings with a non-positive relief extrusion depth. -/
def cs6d : CutterSettings := ⟨90, 90, 2, 0, false, 160, 0, ShapeKind.rectangle, 2, 8⟩

/-- Sample settings with width 10 and height 100 (`shape = rectangle`). -/
def cs7x : CutterSettings := ⟨10, 100, 2, 1, false, 160, 0, ShapeKind.rectangle, 2, 8⟩

/-- A sample traced silhouette: a right triangle of legs 4. -/
def silT : Shape2D := ⟨Path2D.poly [(0, 0), (4, 0), (0, 4)], []⟩

/-- A sample relief contour set: the single triangle `silT`. -/
def shapes6 : List Shape2D := [silT]

/-- A sample stamp geometry: a 10 by 10 square extruded by 3.5. -/
def stampSq : Geometry :=
  Geometry.extrudeG [⟨Path2D.poly [(0, 0), (10, 0), (10, 10), (0, 10)], []⟩] (3.5 : ℚ)

/-- A sample tall thin stamp geometry: 1 wide, 100 tall. -/
def stamp7x : Geometry :=
  Geometry.extrudeG [⟨Path2D.poly [(0, 0), (1, 0), (1, 100), (0, 100)], []⟩] 1

/-- A small triangle contour, area 1/2. -/
def shA : Shape2D := ⟨Path2D.poly [(0, 0), (1, 0), (0, 1)], []⟩

/-- A larger triangle contour, area 8. -/
def shB : Shape2D := ⟨Path2D.poly [(0, 0), (4, 0), (0, 4)], []⟩

/-- A sample all-black opaque source image. -/
def img0 : Img := fun _ => ⟨0, 255⟩

/-- The identity blur operator, as one instance of a blur. -/
def blur0 : BlurOp := id

/-! ### Supporting lemmas -/

lemma sum_zipWith_add {α β : Type} (f g : α → β → ℚ) (l1 : List α) (l2 : List β) :
    (List.zipWith (fun a b => f a b + g a b) l1 l2).sum
      = (List.zipWith f l1 l2).sum + (List.zipWith g l1 l2).sum := by
  induction l1 generalizing l2 with
  | nil => simp
  | cons x t ih =>
    cases l2 with
    | nil => simp
    | cons y u => simp [List.zipWith, ih u]; ring

lemma sum_zipWith_mulc {α β : Type} (c : ℚ) (f : α → β → ℚ) (l1 : List α) (l2 : List β) :
    (List.zipWith (fun a b => c * f a b) l1 l2).sum = c * (List.zipWith f l1 l2).sum := by
  induction l1 generalizing l2 with
  | nil => simp
  | cons x t ih =>
    cases l2 with
    | nil => simp
    | cons y u => simp [List.zipWith, ih u]; ring

lemma sum_zipWith_fst {α β : Type} (g : α → ℚ) (l1 : List α) (l2 : List β)
    (h : l1.length = l2.length) :
    (List.zipWith (fun a (_ : β) => g a) l1 l2).sum = (l1.map g).sum := by
  induction l1 generalizing l2 with
  | nil => simp
  | cons x t ih =>
    cases l2 with
    | nil => simp at h
    | cons y u =>
      simp only [List.length_cons, Nat.succ.injEq] at h
      simp [List.zipWith, ih u h]

lemma sum_zipWith_snd {α β : Type} (g : β → ℚ) (l1 : List α) (l2 : List β)
    (h : l1.length = l2.length) :
    (List.zipWith (fun (_ : α) b => g b) l1 l2).sum = (l2.map g).sum := by
  induction l1 generalizing l2 with
  | nil => cases l2 with
    | nil => simp
    | cons y u => simp at h
  | cons x t ih =>
    cases l2 with
    | nil => simp at h
    | cons y u =>
      simp only [List.length_cons, Nat.succ.injEq] at h
      simp [List.zipWith, ih u h]

lemma cyc_sum_zero (g : Pt → ℚ) (pts : List Pt) :
    (List.zipWith (fun a b => g b - g a) pts (pts.rotate 1)).sum = 0 := by
  have hfun : (fun (a b : Pt) => g b - g a)
      = fun (a b : Pt) => (fun (_ : Pt) (q : Pt) => g q) a b
          + (fun (p : Pt) (_ : Pt) => (-1 : ℚ) * g p) a b := by
    funext a b; ring
  rw [hfun, sum_zipWith_add]
  have hlen : pts.length = (pts.rotate 1).length := (pts.length_rotate 1).symm
  rw [sum_zipWith_snd g pts (pts.rotate 1) hlen]
  have hmul : (fun (p : Pt) (_ : Pt) => (-1 : ℚ) * g p)
      = fun (p : Pt) (q : Pt) => (-1 : ℚ) * (fun (a : Pt) (_ : Pt) => g a) p q := rfl
  rw [hmul, sum_zipWith_mulc, sum_zipWith_fst g pts (pts.rotate 1) hlen]
  have hperm : ((pts.rotate 1).map g).sum = (pts.map g).sum :=
    ((pts.rotate_perm 1).map g).sum_eq
  rw [hperm]; ring

/-- Scaling every point of a polygon toward a centre by `k` multiplies its
signed shoelace area by `k ^ 2`. -/
lemma shoelace_map_scaleAbout (c : Pt) (k : ℚ) (pts : List Pt) :
    shoelace (pts.map (scaleAbout c k)) = k ^ 2 * shoelace pts := by
  unfold shoelace
  rw [← List.map_rotate, List.zipWith_map]
  have hfun : (fun (a b : Pt) => cross2 (scaleAbout c k a) (scaleAbout c k b))
      = fun (a b : Pt) =>
          (fun (p q : Pt) => (k ^ 2) * cross2 p q) a b
            + ((fun (p q : Pt) => (c.1 * (k - k ^ 2)) * (q.2 - p.2)) a b
              + (fun (p q : Pt) => (-(c.2 * (k - k ^ 2))) * (q.1 - p.1)) a b) := by
    funext a b; simp only [cross2, scaleAbout]; ring
  rw [hfun, sum_zipWith_add, sum_zipWith_add, sum_zipWith_mulc]
  have h2 : (fun (p q : Pt) => (c.1 * (k - k ^ 2)) * (q.2 - p.2))
      = fun (p q : Pt) => (c.1 * (k - k ^ 2)) * (fun (a b : Pt) => b.2 - a.2) p q := rfl
  have h3 : (fun (p q : Pt) => (-(c.2 * (k - k ^ 2))) * (q.1 - p.1))
      = fun (p q : Pt) => (-(c.2 * (k - k ^ 2))) * (fun (a b : Pt) => b.1 - a.1) p q := rfl
  rw [h2, sum_zipWith_mulc, h3, sum_zipWith_mulc,
    cyc_sum_zero (fun p => p.2) pts, cyc_sum_zero (fun p => p.1) pts]
  ring

lemma pointBB_wf (p : Pt) : (pointBB p).wf := ⟨le_refl _, le_refl _⟩

lemma merge2_wf {a b : BB2} (ha : a.wf) (_hb : b.wf) : (merge2 a b).wf := by
  refine ⟨?_, ?_⟩ <;> simp only [merge2]
  · exact le_trans (min_le_left _ _) (le_trans ha.1 (le_max_left _ _))
  · exact le_trans (min_le_left _ _) (le_trans ha.2 (le_max_left _ _))

lemma foldl_merge_wf : ∀ (t : List Pt) (acc : BB2), acc.wf →
    (t.foldl (fun b q => merge2 b (pointBB q)) acc).wf := by
  intro t
  induction t with
  | nil => intro acc h; exact h
  | cons p u ih => intro acc h; exact ih _ (merge2_wf h (pointBB_wf p))

lemma ptsBB2_wf : ∀ (l : List Pt) (b : BB2), ptsBB2 l = some b → b.wf := by
  intro l b h
  cases l with
  | nil => simp [ptsBB2] at h
  | cons p t =>
    simp only [ptsBB2, Option.some.injEq] at h
    rw [← h]; exact foldl_merge_wf t _ (pointBB_wf p)

lemma path_bb2_wf : ∀ (p : Path2D) (b : BB2), p.bb2 = some b → b.wf := by
  intro p b h
  cases p with
  | poly pts => exact ptsBB2_wf pts b h
  | circle cx cy r =>
    simp only [Path2D.bb2, Option.some.injEq] at h
    subst h
    refine ⟨?_, ?_⟩ <;> dsimp only <;> linarith [abs_nonneg r]

lemma mergeO_wf {x y : Option BB2} (hx : ∀ b, x = some b → BB2.wf b)
    (hy : ∀ b, y = some b → BB2.wf b) : ∀ b, mergeO x y = some b → BB2.wf b := by
  intro b h
  cases x with
  | none => exact hy b h
  | some a =>
    cases y with
    | none =>
      simp only [mergeO, Option.some.injEq] at h
      rw [← h]; exact hx a rfl
    | some a2 =>
      simp only [mergeO, Option.some.injEq] at h
      rw [← h]; exact merge2_wf (hx a rfl) (hy a2 rfl)

lemma holes_fold_wf : ∀ (hs : List Path2D) (acc : Option BB2),
    (∀ b, acc = some b → BB2.wf b) →
    ∀ b, hs.foldl (fun acc h => mergeO acc h.bb2) acc = some b → BB2.wf b := by
  intro hs
  induction hs with
  | nil => intro acc hacc b h; exact hacc b h
  | cons p u ih =>
    intro acc hacc b h
    exact ih _ (mergeO_wf hacc (path_bb2_wf p)) b h

lemma shape_bb2_wf (sh : Shape2D) : ∀ b, sh.bb2 = some b → BB2.wf b := by
  intro b h
  exact mergeO_wf (path_bb2_wf sh.outer)
    (holes_fold_wf sh.holes none (by intro b2 h2; simp at h2)) b h

lemma shapesBB2_wf : ∀ (l : List Shape2D) (acc : Option BB2),
    (∀ b, acc = some b → BB2.wf b) →
    ∀ b, l.foldl (fun acc sh => mergeO acc sh.bb2) acc = some b → BB2.wf b := by
  intro l
  induction l with
  | nil => intro acc hacc b h; exact hacc b h
  | cons sh u ih =>
    intro acc hacc b h
    exact ih _ (mergeO_wf hacc (shape_bb2_wf sh)) b h

/-- Every geometry the model can build has a well-formed bounding box. -/
lemma Geometry.bbox_wf : ∀ (g : Geometry) (b : BB3), g.bbox = some b → b.wf := by
  intro g
  induction g with
  | emptyG => intro b h; simp [Geometry.bbox] at h
  | extrudeG shapes d =>
    intro b h
    simp only [Geometry.bbox, Option.map_eq_some'] at h
    obtain ⟨b2, hb2, rfl⟩ := h
    have hw := shapesBB2_wf shapes none (by intro x hx; simp at hx) b2 hb2
    exact ⟨hw.1, hw.2, min_le_max⟩
  | boxG w h d => intro b hb
                  simp only [Geometry.bbox, Option.some.injEq] at hb
                  rw [← hb]; exact ⟨min_le_max, min_le_max, min_le_max⟩
  | cylinderG rT rB h seg =>
    intro b hb
    simp only [Geometry.bbox, Option.some.injEq] at hb
    rw [← hb]
    have hr : (0 : ℚ) ≤ max |rT| |rB| := le_trans (abs_nonneg rT) (le_max_left _ _)
    exact ⟨by linarith, min_le_max, by linarith⟩
  | rotX90 g ih =>
    intro b hb
    simp only [Geometry.bbox, Option.map_eq_some'] at hb
    obtain ⟨b0, hb0, rfl⟩ := hb
    have hw := ih b0 hb0
    exact ⟨hw.1, by simpa using neg_le_neg hw.2.2, hw.2.1⟩
  | translateG dx dy dz g ih =>
    intro b hb
    simp only [Geometry.bbox, Option.map_eq_some'] at hb
    obtain ⟨b0, hb0, rfl⟩ := hb
    have hw := ih b0 hb0
    exact ⟨by simpa using hw.1, by simpa using hw.2.1, by simpa using hw.2.2⟩
  | scaleG sx sy sz g ih =>
    intro b hb
    simp only [Geometry.bbox, Option.map_eq_some'] at hb
    obtain ⟨b0, hb0, rfl⟩ := hb
    exact ⟨min_le_max, min_le_max, min_le_max⟩

/-- The bounding box of a planar scale by `(k, k, 1)` is the scaled
bounding box. -/
lemma bbox_scaleG_xy (k : ℚ) (g : Geometry) :
    (Geometry.scaleG k k 1 g).bbox = g.bbox.map (scaleBB k) := by
  cases hb : g.bbox with
  | none => simp [Geometry.bbox, hb]
  | some b =>
    have hw := Geometry.bbox_wf g b hb
    simp [Geometry.bbox, hb, scaleBB, min_eq_left hw.2.2, max_eq_right hw.2.2]

/-- Scaling a bounding box by factor `1` is the identity. -/
lemma map_scaleBB_one (g : Geometry) : g.bbox.map (scaleBB 1) = g.bbox := by
  cases hb : g.bbox with
  | none => simp
  | some b =>
    have hw := Geometry.bbox_wf g b hb
    have h1 : scaleBB 1 b = b := by
      cases b with
      | mk a1 a2 a3 a4 a5 a6 =>
        simp [scaleBB, min_eq_left hw.1, max_eq_right hw.1, min_eq_left hw.2.1,
          max_eq_right hw.2.1]
    simp [h1]

/-- Planar width of a planar scale by a nonnegative factor. -/
lemma bwidth_scaleG (k : ℚ) (hk : 0 ≤ k) (g : Geometry) :
    (Geometry.scaleG k k 1 g).bwidth = k * g.bwidth := by
  cases hb : g.bbox with
  | none =>
    have h2 : (Geometry.scaleG k k 1 g).bbox = none := by simp [Geometry.bbox, hb]
    simp [Geometry.bwidth, h2, hb]
  | some b =>
    have hw := Geometry.bbox_wf g b hb
    have hx : k * b.minX ≤ k * b.maxX := mul_le_mul_of_nonneg_left hw.1 hk
    have h2 : (Geometry.scaleG k k 1 g).bbox
        = some ⟨k * b.minX, k * b.maxX, min (k * b.minY) (k * b.maxY),
                max (k * b.minY) (k * b.maxY), min (1 * b.minZ) (1 * b.maxZ),
                max (1 * b.minZ) (1 * b.maxZ)⟩ := by
      simp [Geometry.bbox, hb, min_eq_left hx, max_eq_right hx]
    simp [Geometry.bwidth, h2, hb]
    ring

/-! ### Claim theorems -/

/-- C10: with `invert = true` the relief binarization classifies a pixel
solid exactly when the same pixel with `invert = false` is background:
inverted, a pixel is solid iff its average RGB is at least `threshold`;
not inverted, iff it is below `threshold`. -/
theorem stamp_threshold_invert_complement (s : CutterSettings) (r g b : ℕ) :
    classifyStampPixel { s with invert := true } r g b
      = !(classifyStampPixel { s with invert := false } r g b)
    ∧ (classifyStampPixel { s with invert := true } r g b = true
        ↔ s.threshold ≤ ((r : ℚ) + (g : ℚ) + (b : ℚ)) / 3)
    ∧ (classifyStampPixel { s with invert := false } r g b = true
        ↔ ((r : ℚ) + (g : ℚ) + (b : ℚ)) / 3 < s.threshold) := by
  refine ⟨rfl, ?_, ?_⟩ <;> simp [classifyStampPixel, not_lt]

/-- C9: with `shape = outline` but no silhouette shape, both builders take
the circle branch: the base plate is the cylinder of diameter `width` and
the wall is the circular ring of inner radius `width / 2` and outer radius
`width / 2 + frameThickness`; neither is the rectangle-branch result. -/
theorem outline_without_silhouette_circle_branch (s : CutterSettings)
    (h : s.shape = ShapeKind.outline) :
    createBasePlate s none
      = Geometry.translateG 0 0 (-(s.baseThickness / 2))
          (Geometry.rotX90
            (Geometry.cylinderG (s.width / 2) (s.width / 2) s.baseThickness 64))
    ∧ createCutterFrame s none
      = Geometry.translateG 0 0 (-s.baseThickness)
          (Geometry.extrudeG
            [⟨Path2D.circle 0 0 (s.width / 2 + s.frameThickness),
              [Path2D.circle 0 0 (s.width / 2)]⟩]
            (s.frameHeight + s.baseThickness))
    ∧ createBasePlate s none
      ≠ Geometry.translateG 0 0 (-(s.baseThickness / 2))
          (Geometry.boxG s.width s.height s.baseThickness)
    ∧ (∀ (pts : List Pt) (holes : List Path2D) (d : ℚ),
        createCutterFrame s none
          ≠ Geometry.translateG 0 0 (-s.baseThickness)
              (Geometry.extrudeG [⟨Path2D.poly pts, holes⟩] d)) := by
  refine ⟨?_, ?_, ?_, ?_⟩ <;> simp [createBasePlate, createCutterFrame, h]

/-- C9 witness: at the sample outline settings the base plate is the
cylinder of radius 4 (diameter = requested width 8). -/
theorem outline_without_silhouette_circle_branch_ws :
    csO.shape = ShapeKind.outline
    ∧ createBasePlate csO none
        = Geometry.translateG 0 0 (-(1 : ℚ))
            (Geometry.rotX90 (Geometry.cylinderG 4 4 2 64)) :=
  ⟨rfl, by
    have h := (outline_without_silhouette_circle_branch csO rfl).1
    norm_num [csO] at h ⊢
    exact h⟩

/-- C6 (amended): the stamp build step returns the explicit empty
geometry exactly for an empty contour set; for a non-empty contour set
it returns the (possibly degenerate) Y-mirrored extrusion by
`detailHeight`, with no depth check. -/
theorem stamp_empty_policy (shapes : List Shape2D) (s : CutterSettings) :
    (shapes = [] →
      createStampGeometry shapes s = Geometry.emptyG
      ∧ (createStampGeometry shapes s).meshIsEmpty = true)
    ∧ (shapes ≠ [] →
      createStampGeometry shapes s
        = Geometry.scaleG 1 (-1) 1 (Geometry.extrudeG shapes s.detailHeight)) := by
  constructor
  · intro h; subst h
    exact ⟨by simp [createStampGeometry], by simp [createStampGeometry, Geometry.meshIsEmpty]⟩
  · intro h; simp [createStampGeometry, h]

/-- C6 witness: the empty contour set yields the explicit empty geometry. -/
theorem stamp_empty_policy_ws :
    (([] : List Shape2D) = [])
    ∧ createStampGeometry [] csR = Geometry.emptyG
    ∧ (createStampGeometry [] csR).meshIsEmpty = true :=
  ⟨rfl, (stamp_empty_policy [] csR).1 rfl⟩

/-- C6 counterexample: with a non-positive extrusion depth
(`detailHeight = 0`) and a non-empty contour set, the build step does not
return an empty-geometry result; it returns a non-empty (degenerate)
extrusion, contradicting the claim that depth `≤ 0` yields an empty mesh. -/
theorem stamp_depth_cex :
    cs6d.detailHeight ≤ 0
    ∧ shapes6 ≠ []
    ∧ (createStampGeometry shapes6 cs6d).meshIsEmpty = false
    ∧ createStampGeometry shapes6 cs6d ≠ Geometry.emptyG := by
  refine ⟨by norm_num [cs6d], by simp [shapes6], ?_, ?_⟩ <;> decide

/-- C4: for every blur operator and every source image, a pixel that is
content of the binarized base mask is still content of the expanded mask
obtained by the shadow-blur passes re-thresholded at the looser cutoff
240 (the image itself is drawn opaquely over its shadow, so content stays
black). -/
theorem silhouette_expand_contains_content (blur : BlurOp) (img : Img)
    (p : ℕ × ℕ) (h : baseMask img p = true) :
    expandedMask blur img p = true := by
  have h0 : (binarizeBase img p).v = 0 := by
    simpa [baseMask] using h
  have ha : (binarizeBase img p).a = 255 := rfl
  simp only [expandedMask, expandedCanvas, drawImageWithShadow, sourceOver,
    decide_eq_true_eq]
  rw [h0, ha]
  norm_num

/-- C4 witness: on the all-black image, pixel (0,0) is base content and
remains content of the expanded mask under the identity blur. -/
theorem silhouette_expand_contains_content_ws :
    baseMask img0 (0, 0) = true ∧ expandedMask blur0 img0 (0, 0) = true :=
  ⟨by norm_num [baseMask, binarizeBase, drawOverWhite, img0],
   silhouette_expand_contains_content blur0 img0 (0, 0)
     (by norm_num [baseMask, binarizeBase, drawOverWhite, img0])⟩

lemma closeContour_ne_nil {pts : List Pt} (h : pts ≠ []) : closeContour pts ≠ [] := by
  cases pts with
  | nil => exact absurd rfl h
  | cons a t =>
    simp only [closeContour]
    split <;> simp

lemma mergeO_some_left (a : BB2) (y : Option BB2) : ∃ c, mergeO (some a) y = some c := by
  cases y <;> exact ⟨_, rfl⟩

lemma shapesBB2_singleton (sh : Shape2D) : shapesBB2 [sh] = sh.bb2 := rfl

lemma outer_bb2_some (sh : Shape2D) (h : sh.outer.getPoints ≠ []) :
    ∃ a, sh.outer.bb2 = some a := by
  cases houter : sh.outer with
  | poly pts =>
    rw [houter] at h
    cases pts with
    | nil => simp [Path2D.getPoints] at h
    | cons p t => exact ⟨_, rfl⟩
  | circle cx cy r => exact ⟨_, rfl⟩

lemma shapesBB2_single_some (sh : Shape2D) (h : sh.outer.getPoints ≠ []) :
    ∃ b2, shapesBB2 [sh] = some b2 := by
  obtain ⟨a, ha⟩ := outer_bb2_some sh h
  rw [shapesBB2_singleton, Shape2D.bb2, ha]
  exact mergeO_some_left a _

lemma shapesBB2_of_outer_some (sh : Shape2D) (a : BB2) (ha : sh.outer.bb2 = some a) :
    ∃ b2, shapesBB2 [sh] = some b2 := by
  rw [shapesBB2_singleton, Shape2D.bb2, ha]
  exact mergeO_some_left a _

/-- The z interval of an extrusion by a nonnegative depth translated down
by `bt`. -/
lemma zInterval_translate_extrude (shapes : List Shape2D) (d bt : ℚ) (b2 : BB2)
    (h : shapesBB2 shapes = some b2) (hd : 0 ≤ d) :
    (Geometry.translateG 0 0 (-bt) (Geometry.extrudeG shapes d)).zInterval
      = some (-bt, d - bt) := by
  simp [Geometry.zInterval, Geometry.bbox, h, min_eq_left hd, max_eq_right hd]
  ring

/-- C5: for every settings and shape kind (rectangle, circle, outline with
a silhouette), the base plate occupies `[-baseThickness, 0]` on the build
axis and the cutter wall occupies `[-baseThickness, frameHeight]`. -/
theorem base_and_wall_z_intervals (s : CutterSettings) (sh : Shape2D)
    (hb : 0 ≤ s.baseThickness) (hf : 0 ≤ s.frameHeight)
    (hsh : sh.outer.getPoints ≠ []) :
    (createBasePlate s
        (if s.shape = ShapeKind.outline then some sh else none)).zInterval
      = some (-s.baseThickness, 0)
    ∧ (createCutterFrame s
        (if s.shape = ShapeKind.outline then some sh else none)).zInterval
      = some (-s.baseThickness, s.frameHeight) := by
  rcases s with ⟨w, hei, bt, dh, inv, thr, sm, sk, ft, fh⟩
  simp only at hb hf
  have hmin : min (-(bt / 2)) (bt / 2) = -(bt / 2) := min_eq_left (by linarith)
  have hmax : max (-(bt / 2)) (bt / 2) = bt / 2 := max_eq_right (by linarith)
  have hfb : (0 : ℚ) ≤ fh + bt := by linarith
  cases sk with
  | rectangle =>
    have hnone : (if ShapeKind.rectangle = ShapeKind.outline then some sh else none)
        = (none : Option Shape2D) := rfl
    rw [hnone]
    constructor
    · have e : createBasePlate ⟨w, hei, bt, dh, inv, thr, sm, ShapeKind.rectangle, ft, fh⟩ none
          = Geometry.translateG 0 0 (-(bt / 2)) (Geometry.boxG w hei bt) := rfl
      simp only [e, Geometry.zInterval, Geometry.bbox, hmin, hmax, Option.map_some']
      simp only [Option.some.injEq, Prod.mk.injEq]
      constructor <;> ring
    · obtain ⟨b2, hb2⟩ :=
        shapesBB2_single_some
          ⟨Path2D.poly [(-(w / 2) - ft, -(hei / 2) - ft), (w / 2 + ft, -(hei / 2) - ft),
            (w / 2 + ft, hei / 2 + ft), (-(w / 2) - ft, hei / 2 + ft),
            (-(w / 2) - ft, -(hei / 2) - ft)],
           [Path2D.poly [(-(w / 2), -(hei / 2)), (-(w / 2), hei / 2), (w / 2, hei / 2),
             (w / 2, -(hei / 2)), (-(w / 2), -(hei / 2))]]⟩ (by simp [Path2D.getPoints])
      have e0 : createCutterFrame ⟨w, hei, bt, dh, inv, thr, sm, ShapeKind.rectangle, ft, fh⟩ none
          = Geometry.translateG 0 0 (-bt)
              (Geometry.extrudeG
                [⟨Path2D.poly [(-(w / 2) - ft, -(hei / 2) - ft), (w / 2 + ft, -(hei / 2) - ft),
                   (w / 2 + ft, hei / 2 + ft), (-(w / 2) - ft, hei / 2 + ft),
                   (-(w / 2) - ft, -(hei / 2) - ft)],
                  [Path2D.poly [(-(w / 2), -(hei / 2)), (-(w / 2), hei / 2), (w / 2, hei / 2),
                    (w / 2, -(hei / 2)), (-(w / 2), -(hei / 2))]]⟩]
                (fh + bt)) := rfl
      have e := zInterval_translate_extrude _ (fh + bt) bt b2 hb2 hfb
      rw [e0, e]
      norm_num
  | circle =>
    have hnone : (if ShapeKind.circle = ShapeKind.outline then some sh else none)
        = (none : Option Shape2D) := rfl
    rw [hnone]
    constructor
    · have e : createBasePlate ⟨w, hei, bt, dh, inv, thr, sm, ShapeKind.circle, ft, fh⟩ none
          = Geometry.translateG 0 0 (-(bt / 2))
              (Geometry.rotX90 (Geometry.cylinderG (w / 2) (w / 2) bt 64)) := rfl
      simp only [e, Geometry.zInterval, Geometry.bbox, hmin, hmax, Option.map_some']
      simp only [Option.some.injEq, Prod.mk.injEq]
      constructor <;> ring
    · obtain ⟨b2, hb2⟩ :=
        shapesBB2_of_outer_some
          ⟨Path2D.circle 0 0 (w / 2 + ft), [Path2D.circle 0 0 (w / 2)]⟩ _ rfl
      have e0 : createCutterFrame ⟨w, hei, bt, dh, inv, thr, sm, ShapeKind.circle, ft, fh⟩ none
          = Geometry.translateG 0 0 (-bt)
              (Geometry.extrudeG
                [⟨Path2D.circle 0 0 (w / 2 + ft), [Path2D.circle 0 0 (w / 2)]⟩]
                (fh + bt)) := rfl
      have e := zInterval_translate_extrude _ (fh + bt) bt b2 hb2 hfb
      rw [e0, e]
      norm_num
  | outline =>
    have hsome : (if ShapeKind.outline = ShapeKind.outline then some sh else none)
        = some sh := rfl
    rw [hsome]
    constructor
    · obtain ⟨b2, hb2⟩ := shapesBB2_single_some sh hsh
      have e0 : createBasePlate ⟨w, hei, bt, dh, inv, thr, sm, ShapeKind.outline, ft, fh⟩
            (some sh)
          = Geometry.translateG 0 0 (-bt) (Geometry.extrudeG [sh] bt) := rfl
      have e := zInterval_translate_extrude [sh] bt bt b2 hb2 hb
      rw [e0, e]
      norm_num
    · have hcc : closeContour sh.outer.getPoints ≠ [] := closeContour_ne_nil hsh
      obtain ⟨a, ha⟩ :=
        outer_bb2_some
          ⟨Path2D.poly (closeContour sh.outer.getPoints),
           [Path2D.poly ((closeContour sh.outer.getPoints).map
             (scaleAbout (centroidOf (closeContour sh.outer.getPoints))
               (max (0.5 : ℚ) (1 - 2 * ft / w))))]⟩
          (by simpa [Path2D.getPoints] using hcc)
      obtain ⟨b2, hb2⟩ := shapesBB2_of_outer_some _ _ ha
      have e0 : createCutterFrame ⟨w, hei, bt, dh, inv, thr, sm, ShapeKind.outline, ft, fh⟩
            (some sh)
          = Geometry.translateG 0 0 (-bt)
              (Geometry.extrudeG
                [⟨Path2D.poly (closeContour sh.outer.getPoints),
                  [Path2D.poly ((closeContour sh.outer.getPoints).map
                    (scaleAbout (centroidOf (closeContour sh.outer.getPoints))
                      (max (0.5 : ℚ) (1 - 2 * ft / w))))]⟩]
                (fh + bt)) := rfl
      have e := zInterval_translate_extrude _ (fh + bt) bt b2 hb2 hfb
      rw [e0, e]
      norm_num

/-- C5 witness: at the default rectangle settings and the sample
silhouette, the base plate spans `[-2, 0]` and the wall spans `[-2, 8]`. -/
theorem base_and_wall_z_intervals_ws :
    (0 : ℚ) ≤ csR.baseThickness ∧ (0 : ℚ) ≤ csR.frameHeight
    ∧ silT.outer.getPoints ≠ []
    ∧ (createBasePlate csR
        (if csR.shape = ShapeKind.outline then some silT else none)).zInterval
        = some (-csR.baseThickness, 0)
    ∧ (createCutterFrame csR
        (if csR.shape = ShapeKind.outline then some silT else none)).zInterval
        = some (-csR.baseThickness, csR.frameHeight) :=
  ⟨by norm_num [csR], by norm_num [csR], by simp [silT, Path2D.getPoints],
   (base_and_wall_z_intervals csR silT (by norm_num [csR]) (by norm_num [csR])
     (by simp [silT, Path2D.getPoints])).1,
   (base_and_wall_z_intervals csR silT (by norm_num [csR]) (by norm_num [csR])
     (by simp [silT, Path2D.getPoints])).2⟩

/-- C8: in an outline generation that produced a silhouette, the wall and
the base geometry handed on by the scene layout are each the built solid
with the Y axis flipped exactly once, with the footprint group scale (when
it is applied at all) applied outside the flip. -/
theorem flip_once_before_scale (s : CutterSettings) (stampGeo : Geometry)
    (sh : Shape2D) (h : s.shape = ShapeKind.outline) :
    ∃ k : ℚ,
      (sceneContentLayout s stampGeo (some sh)).2.1
        = (if k = 1 then flipGeometryY (createCutterFrame s (some sh))
           else Geometry.scaleG k k 1 (flipGeometryY (createCutterFrame s (some sh))))
      ∧ (sceneContentLayout s stampGeo (some sh)).2.2
        = (if k = 1 then flipGeometryY (createBasePlate s (some sh))
           else Geometry.scaleG k k 1 (flipGeometryY (createBasePlate s (some sh)))) := by
  refine ⟨(if 0 < (flipGeometryY (createCutterFrame s (some sh))).bwidth
      then s.width / (flipGeometryY (createCutterFrame s (some sh))).bwidth else 1),
    ?_, ?_⟩ <;>
  · simp only [sceneContentLayout, h]
    by_cases h1 : (if 0 < (flipGeometryY (createCutterFrame s (some sh))).bwidth
        then s.width / (flipGeometryY (createCutterFrame s (some sh))).bwidth else 1) = 1 <;>
      simp [h1]

/-- C8 witness: at the sample outline settings and silhouette the layout
returns the flipped-then-scaled wall and base. -/
theorem flip_once_before_scale_ws :
    csO.shape = ShapeKind.outline
    ∧ ∃ k : ℚ,
      (sceneContentLayout csO stampSq (some silT)).2.1
        = (if k = 1 then flipGeometryY (createCutterFrame csO (some silT))
           else Geometry.scaleG k k 1 (flipGeometryY (createCutterFrame csO (some silT))))
      ∧ (sceneContentLayout csO stampSq (some silT)).2.2
        = (if k = 1 then flipGeometryY (createBasePlate csO (some silT))
           else Geometry.scaleG k k 1 (flipGeometryY (createBasePlate csO (some silT)))) :=
  ⟨rfl, flip_once_before_scale csO stampSq silT rfl⟩

/-- C2: for an outline generation over a traced contour, the wall is the
extrusion of the closed contour with the inner hole obtained by scaling
every closed-contour point toward the centroid by
`s = max(0.5, 1 - 2 * frameThickness / width)`; this hole scale is always
at least 0.5, and whenever it is below 1 and the outer contour has
positive area the outer footprint area strictly exceeds the hole area. -/
theorem cutter_frame_hole_scale (s : CutterSettings) (pts : List Pt)
    (holes : List Path2D) (hshape : s.shape = ShapeKind.outline)
    (hw : 0 < s.width) :
    createCutterFrame s (some ⟨Path2D.poly pts, holes⟩)
      = Geometry.translateG 0 0 (-s.baseThickness)
          (Geometry.extrudeG
            [⟨Path2D.poly (closeContour pts),
              [Path2D.poly ((closeContour pts).map
                (scaleAbout (centroidOf (closeContour pts))
                  (max (0.5 : ℚ) (1 - 2 * s.frameThickness / s.width))))]⟩]
            (s.frameHeight + s.baseThickness))
    ∧ (0.5 : ℚ) ≤ max (0.5 : ℚ) (1 - 2 * s.frameThickness / s.width)
    ∧ (0 < |shoelace (closeContour pts)| →
        max (0.5 : ℚ) (1 - 2 * s.frameThickness / s.width) < 1 →
        |shoelace ((closeContour pts).map
            (scaleAbout (centroidOf (closeContour pts))
              (max (0.5 : ℚ) (1 - 2 * s.frameThickness / s.width))))|
          < |shoelace (closeContour pts)|) := by
  refine ⟨?_, le_max_left _ _, ?_⟩
  · rcases s with ⟨w, hei, bt, dh, inv, thr, sm, sk, ft, fh⟩
    cases hshape
    rfl
  · intro hA hk1
    set k : ℚ := max (0.5 : ℚ) (1 - 2 * s.frameThickness / s.width) with hkdef
    have hk0 : (0.5 : ℚ) ≤ k := le_max_left _ _
    rw [shoelace_map_scaleAbout, abs_mul, abs_of_nonneg (sq_nonneg k)]
    have hklt : k ^ 2 < 1 := by nlinarith
    calc k ^ 2 * |shoelace (closeContour pts)|
        < 1 * |shoelace (closeContour pts)| := by
          exact mul_lt_mul_of_pos_right hklt hA
      _ = |shoelace (closeContour pts)| := one_mul _

/-- C2 witness: at the sample outline settings (hole scale
`max(0.5, 1 - 4/8) = 0.5`) the bound `0.5 ≤ scale` holds. -/
theorem cutter_frame_hole_scale_ws :
    csO.shape = ShapeKind.outline ∧ 0 < csO.width
    ∧ (0.5 : ℚ) ≤ max (0.5 : ℚ) (1 - 2 * csO.frameThickness / csO.width) :=
  ⟨rfl, by norm_num [csO],
   (cutter_frame_hole_scale csO [(0, 0), (4, 0), (0, 4)] [] rfl
     (by norm_num [csO])).2.1⟩

/-- Invariant of the largest-area fold: either the accumulator never
changes and every scanned area is at most the running maximum, or the
result is some scanned contour whose area is the recorded maximum, every
earlier contour has strictly smaller area, and every later one has area
at most it. -/
lemma selFold_spec : ∀ (l : List Shape2D) (b : Shape2D) (m : ℚ),
    (l.foldl selStep (b, m) = (b, m) ∧ ∀ s ∈ l, uarea s ≤ m)
    ∨ (∃ l1 l2, l = l1 ++ (l.foldl selStep (b, m)).1 :: l2
        ∧ (l.foldl selStep (b, m)).2 = uarea (l.foldl selStep (b, m)).1
        ∧ m < (l.foldl selStep (b, m)).2
        ∧ (∀ s ∈ l1, uarea s < (l.foldl selStep (b, m)).2)
        ∧ (∀ s ∈ l2, uarea s ≤ (l.foldl selStep (b, m)).2)) := by
  intro l
  induction l with
  | nil => intro b m; left; exact ⟨rfl, by simp⟩
  | cons x t ih =>
    intro b m
    by_cases hx : m < uarea x
    · have hstep : selStep (b, m) x = (x, uarea x) := by simp [selStep, hx]
      have hfold : (x :: t).foldl selStep (b, m) = t.foldl selStep (x, uarea x) := by
        simp [List.foldl_cons, hstep]
      rcases ih x (uarea x) with ⟨heq, hall⟩ | ⟨l1, l2, hsplit, hval, hm, h1, h2⟩
      · right
        refine ⟨[], t, ?_, ?_, ?_, by simp, ?_⟩
        · simp [hfold, heq]
        · rw [hfold, heq]
        · rw [hfold, heq]; exact hx
        · intro s hs
          rw [hfold, heq]
          exact hall s hs
      · right
        refine ⟨x :: l1, l2, ?_, ?_, ?_, ?_, ?_⟩
        · rw [hfold, List.cons_append]
          exact congrArg (x :: ·) hsplit
        · rw [hfold]; exact hval
        · rw [hfold]; exact lt_trans hx hm
        · intro s hs
          rcases List.mem_cons.mp hs with rfl | hs2
          · rw [hfold]; exact hm
          · rw [hfold]; exact h1 s hs2
        · intro s hs; rw [hfold]; exact h2 s hs
    · have hstep : selStep (b, m) x = (b, m) := by simp [selStep, hx]
      have hfold : (x :: t).foldl selStep (b, m) = t.foldl selStep (b, m) := by
        simp [List.foldl_cons, hstep]
      rcases ih b m with ⟨heq, hall⟩ | ⟨l1, l2, hsplit, hval, hm, h1, h2⟩
      · left
        refine ⟨hfold.trans heq, ?_⟩
        intro s hs
        rcases List.mem_cons.mp hs with rfl | hs2
        · exact le_of_not_lt hx
        · exact hall s hs2
      · right
        refine ⟨x :: l1, l2, ?_, ?_, ?_, ?_, ?_⟩
        · rw [hfold, List.cons_append]
          exact congrArg (x :: ·) hsplit
        · rw [hfold]; exact hval
        · rw [hfold]; exact hm
        · intro s hs
          rcases List.mem_cons.mp hs with rfl | hs2
          · rw [hfold]; exact lt_of_le_of_lt (le_of_not_lt hx) hm
          · rw [hfold]; exact h1 s hs2
        · intro s hs; rw [hfold]; exact h2 s hs

/-- C3: the silhouette selection returns `none` on an empty trace; on a
non-empty trace it returns a contour of maximal unsigned area, and every
contour strictly before the returned one has strictly smaller area (ties
resolve to the first encountered). -/
theorem largest_area_selection :
    selectLargestShape [] = none
    ∧ ∀ (shapes : List Shape2D), shapes ≠ [] →
        ∃ b l1 l2, selectLargestShape shapes = some b
          ∧ shapes = l1 ++ b :: l2
          ∧ (∀ s ∈ shapes, uarea s ≤ uarea b)
          ∧ (∀ s ∈ l1, uarea s < uarea b) := by
  constructor
  · rfl
  · intro shapes hne
    obtain ⟨s0, rest, rfl⟩ := List.exists_cons_of_ne_nil hne
    rcases selFold_spec (s0 :: rest) s0 0 with ⟨heq, hall⟩ | ⟨l1, l2, hsplit, hval, hm, h1, h2⟩
    · refine ⟨s0, [], rest, ?_, rfl, ?_, by simp⟩
      · simp [selectLargestShape, heq]
      · intro s hs
        have h0 : uarea s ≤ 0 := hall s hs
        have h1 : (0 : ℚ) ≤ uarea s0 := abs_nonneg _
        linarith
    · refine ⟨((s0 :: rest).foldl selStep (s0, 0)).1, l1, l2, rfl, hsplit, ?_, ?_⟩
      · intro s hs
        rw [hsplit] at hs
        rcases List.mem_append.mp hs with hs1 | hs2
        · exact le_of_lt (hval ▸ h1 s hs1)
        · rcases List.mem_cons.mp hs2 with rfl | hs3
          · exact le_refl _
          · exact hval ▸ h2 s hs3
      · intro s hs
        exact hval ▸ h1 s hs

/-- C3 witness: on the two-contour set with areas 1/2 and 8 the selection
returns the larger contour, preceded only by the strictly smaller one. -/
theorem largest_area_selection_ws :
    ([shA, shB] : List Shape2D) ≠ []
    ∧ ∃ b l1 l2, selectLargestShape [shA, shB] = some b
        ∧ [shA, shB] = l1 ++ b :: l2
        ∧ (∀ s ∈ [shA, shB], uarea s ≤ uarea b)
        ∧ (∀ s ∈ l1, uarea s < uarea b) :=
  ⟨by simp, largest_area_selection.2 [shA, shB] (by simp)⟩

/-- C1: in an outline generation that produced a silhouette, the layout
measures the flipped wall's bounding width, computes the single factor
`width / measured`, scales stamp, wall and base bounding boxes by that one
factor, and afterwards the wall's bounding width equals the requested
width exactly. -/
theorem outline_scale_normalizes_width (s : CutterSettings) (stampGeo : Geometry)
    (sh : Shape2D) (h : s.shape = ShapeKind.outline)
    (hW : 0 < (flipGeometryY (createCutterFrame s (some sh))).bwidth)
    (hw : 0 < s.width) :
    (sceneContentLayout s stampGeo (some sh)).2.1.bwidth = s.width
    ∧ (sceneContentLayout s stampGeo (some sh)).1.bbox
        = stampGeo.bbox.map
            (scaleBB (s.width / (flipGeometryY (createCutterFrame s (some sh))).bwidth))
    ∧ (sceneContentLayout s stampGeo (some sh)).2.1.bbox
        = (flipGeometryY (createCutterFrame s (some sh))).bbox.map
            (scaleBB (s.width / (flipGeometryY (createCutterFrame s (some sh))).bwidth))
    ∧ (sceneContentLayout s stampGeo (some sh)).2.2.bbox
        = (flipGeometryY (createBasePlate s (some sh))).bbox.map
            (scaleBB (s.width / (flipGeometryY (createCutterFrame s (some sh))).bwidth)) := by
  have hne : (flipGeometryY (createCutterFrame s (some sh))).bwidth ≠ 0 := ne_of_gt hW
  have hk0 : 0 ≤ s.width / (flipGeometryY (createCutterFrame s (some sh))).bwidth :=
    le_of_lt (div_pos hw hW)
  have hout : sceneContentLayout s stampGeo (some sh)
      = if (s.width / (flipGeometryY (createCutterFrame s (some sh))).bwidth) ≠ 1 then
          (Geometry.scaleG (s.width / (flipGeometryY (createCutterFrame s (some sh))).bwidth)
             (s.width / (flipGeometryY (createCutterFrame s (some sh))).bwidth) 1 stampGeo,
           Geometry.scaleG (s.width / (flipGeometryY (createCutterFrame s (some sh))).bwidth)
             (s.width / (flipGeometryY (createCutterFrame s (some sh))).bwidth) 1
             (flipGeometryY (createCutterFrame s (some sh))),
           Geometry.scaleG (s.width / (flipGeometryY (createCutterFrame s (some sh))).bwidth)
             (s.width / (flipGeometryY (createCutterFrame s (some sh))).bwidth) 1
             (flipGeometryY (createBasePlate s (some sh))))
        else
          (stampGeo, flipGeometryY (createCutterFrame s (some sh)),
           flipGeometryY (createBasePlate s (some sh))) := by
    simp only [sceneContentLayout, h, if_true]
    rw [if_pos hW]
  by_cases hk1 : (s.width / (flipGeometryY (createCutterFrame s (some sh))).bwidth) = 1
  · have hbw : (flipGeometryY (createCutterFrame s (some sh))).bwidth = s.width :=
      ((div_eq_one_iff_eq hne).mp hk1).symm
    rw [hout, if_neg (by simp [hk1])]
    refine ⟨hbw, ?_, ?_, ?_⟩ <;> rw [hk1, map_scaleBB_one]
  · rw [hout, if_pos hk1]
    refine ⟨?_, ?_, ?_, ?_⟩
    · rw [bwidth_scaleG _ hk0]
      exact div_mul_cancel₀ s.width hne
    · exact bbox_scaleG_xy _ stampGeo
    · exact bbox_scaleG_xy _ _
    · exact bbox_scaleG_xy _ _

/-- C1 witness: at the sample outline settings (requested width 8,
measured wall width 4) the normalized wall width is exactly 8. -/
theorem outline_scale_normalizes_width_ws :
    csO.shape = ShapeKind.outline
    ∧ 0 < (flipGeometryY (createCutterFrame csO (some silT))).bwidth
    ∧ 0 < csO.width
    ∧ (sceneContentLayout csO stampSq (some silT)).2.1.bwidth = csO.width := by
  have h1 : (flipGeometryY (createCutterFrame csO (some silT))).bwidth = 4 := by
    norm_num [flipGeometryY, createCutterFrame, csO, silT, Path2D.getPoints,
      closeContour, centroidOf, scaleAbout, Geometry.bwidth, Geometry.bbox,
      shapesBB2, Shape2D.bb2, Path2D.bb2, ptsBB2, mergeO, merge2, pointBB,
      shoelace]
  refine ⟨rfl, by rw [h1]; norm_num, by norm_num [csO], ?_⟩
  exact (outline_scale_normalizes_width csO stampSq silT rfl
    (by rw [h1]; norm_num) (by norm_num [csO])).1

/-- C7 (amended): for rectangle/circle shapes with a non-degenerate relief
bounding box, the layout scales the relief uniformly by one factor and
recenters its planar bounding-box center at the origin, and the scaled
relief fits inside the footprint shrunk by a margin of 5% of the WIDTH on
each side of both axes (the code derives both margins from `width`). -/
theorem stamp_fit_margins (s : CutterSettings) (stampGeo : Geometry)
    (sil : Option Shape2D) (b : BB3)
    (hshape : s.shape = ShapeKind.rectangle ∨ s.shape = ShapeKind.circle)
    (hb : stampGeo.bbox = some b)
    (hsw : 0 < b.maxX - b.minX) (hsh2 : 0 < b.maxY - b.minY)
    (haW : 0 ≤ s.width - s.width * 0.05 * 2)
    (haH : 0 ≤ s.height - s.width * 0.05 * 2) :
    ∃ f cx cy, 0 ≤ f
      ∧ (sceneContentLayout s stampGeo sil).1
          = Geometry.translateG (-cx) (-cy) 0 (Geometry.scaleG f f 1 stampGeo)
      ∧ (sceneContentLayout s stampGeo sil).1.bwidth ≤ s.width - s.width * 0.05 * 2
      ∧ (sceneContentLayout s stampGeo sil).1.bheight ≤ s.height - s.width * 0.05 * 2
      ∧ (sceneContentLayout s stampGeo sil).1.bcenter.1 = 0
      ∧ (sceneContentLayout s stampGeo sil).1.bcenter.2.1 = 0 := by
  have hne : ¬ s.shape = ShapeKind.outline := by
    rcases hshape with h | h <;> simp [h]
  have hsW : stampGeo.bwidth = b.maxX - b.minX := by simp [Geometry.bwidth, hb]
  have hsH : stampGeo.bheight = b.maxY - b.minY := by simp [Geometry.bheight, hb]
  set f : ℚ := min ((s.width - s.width * 0.05 * 2) / stampGeo.bwidth)
      ((s.height - s.width * 0.05 * 2) / stampGeo.bheight) with hfdef
  have hf0 : 0 ≤ f := by
    rw [hfdef, hsW, hsH]
    exact le_min (div_nonneg haW (le_of_lt hsw)) (div_nonneg haH (le_of_lt hsh2))
  have hxle : f * b.minX ≤ f * b.maxX :=
    mul_le_mul_of_nonneg_left (by linarith) hf0
  have hyle : f * b.minY ≤ f * b.maxY :=
    mul_le_mul_of_nonneg_left (by linarith) hf0
  have hsb : (Geometry.scaleG f f 1 stampGeo).bbox
      = some ⟨f * b.minX, f * b.maxX, f * b.minY, f * b.maxY,
              min (1 * b.minZ) (1 * b.maxZ), max (1 * b.minZ) (1 * b.maxZ)⟩ := by
    simp [Geometry.bbox, hb, min_eq_left hxle, max_eq_right hxle,
      min_eq_left hyle, max_eq_right hyle]
  have hctr : (Geometry.scaleG f f 1 stampGeo).bcenter
      = ((f * b.minX + f * b.maxX) / 2, (f * b.minY + f * b.maxY) / 2,
         (min (1 * b.minZ) (1 * b.maxZ) + max (1 * b.minZ) (1 * b.maxZ)) / 2) := by
    simp [Geometry.bcenter, hsb]
  have hout : (sceneContentLayout s stampGeo sil).1
      = Geometry.translateG (-(Geometry.scaleG f f 1 stampGeo).bcenter.1)
          (-(Geometry.scaleG f f 1 stampGeo).bcenter.2.1) 0
          (Geometry.scaleG f f 1 stampGeo) := by
    simp only [sceneContentLayout, hne, if_false, hfdef]
  have htr : ∀ (dx dy dz : ℚ) (g : Geometry) (bb : BB3), g.bbox = some bb →
      (Geometry.translateG dx dy dz g).bbox
        = some ⟨bb.minX + dx, bb.maxX + dx, bb.minY + dy, bb.maxY + dy,
                bb.minZ + dz, bb.maxZ + dz⟩ := by
    intro dx dy dz g bb hg
    simp [Geometry.bbox, hg]
  have houtb : (sceneContentLayout s stampGeo sil).1.bbox
      = some ⟨f * b.minX + -((f * b.minX + f * b.maxX) / 2),
              f * b.maxX + -((f * b.minX + f * b.maxX) / 2),
              f * b.minY + -((f * b.minY + f * b.maxY) / 2),
              f * b.maxY + -((f * b.minY + f * b.maxY) / 2),
              min (1 * b.minZ) (1 * b.maxZ) + 0,
              max (1 * b.minZ) (1 * b.maxZ) + 0⟩ := by
    rw [hout, hctr]
    exact htr _ _ _ _ _ hsb
  have hfW : f * (b.maxX - b.minX) ≤ s.width - s.width * 0.05 * 2 := by
    have h1 : f ≤ (s.width - s.width * 0.05 * 2) / (b.maxX - b.minX) := by
      rw [hfdef, hsW, hsH]; exact min_le_left _ _
    calc f * (b.maxX - b.minX)
        ≤ ((s.width - s.width * 0.05 * 2) / (b.maxX - b.minX)) * (b.maxX - b.minX) :=
          mul_le_mul_of_nonneg_right h1 (le_of_lt hsw)
      _ = s.width - s.width * 0.05 * 2 := div_mul_cancel₀ _ (ne_of_gt hsw)
  have hfH : f * (b.maxY - b.minY) ≤ s.height - s.width * 0.05 * 2 := by
    have h1 : f ≤ (s.height - s.width * 0.05 * 2) / (b.maxY - b.minY) := by
      rw [hfdef, hsW, hsH]; exact min_le_right _ _
    calc f * (b.maxY - b.minY)
        ≤ ((s.height - s.width * 0.05 * 2) / (b.maxY - b.minY)) * (b.maxY - b.minY) :=
          mul_le_mul_of_nonneg_right h1 (le_of_lt hsh2)
      _ = s.height - s.width * 0.05 * 2 := div_mul_cancel₀ _ (ne_of_gt hsh2)
  refine ⟨f, (Geometry.scaleG f f 1 stampGeo).bcenter.1,
    (Geometry.scaleG f f 1 stampGeo).bcenter.2.1, hf0, hout, ?_, ?_, ?_, ?_⟩
  · rw [Geometry.bwidth, houtb]
    calc f * b.maxX + -((f * b.minX + f * b.maxX) / 2)
        - (f * b.minX + -((f * b.minX + f * b.maxX) / 2))
        = f * (b.maxX - b.minX) := by ring
      _ ≤ s.width - s.width * 0.05 * 2 := hfW
  · rw [Geometry.bheight, houtb]
    calc f * b.maxY + -((f * b.minY + f * b.maxY) / 2)
        - (f * b.minY + -((f * b.minY + f * b.maxY) / 2))
        = f * (b.maxY - b.minY) := by ring
      _ ≤ s.height - s.width * 0.05 * 2 := hfH
  · rw [Geometry.bcenter, houtb]
    ring
  · rw [Geometry.bcenter, houtb]
    ring

/-- C7 witness: at the default rectangle settings and the square stamp the
fitted relief obeys both margins and is recentered. -/
theorem stamp_fit_margins_ws :
    (csR.shape = ShapeKind.rectangle ∨ csR.shape = ShapeKind.circle)
    ∧ ∃ f cx cy, 0 ≤ f
      ∧ (sceneContentLayout csR stampSq none).1
          = Geometry.translateG (-cx) (-cy) 0 (Geometry.scaleG f f 1 stampSq)
      ∧ (sceneContentLayout csR stampSq none).1.bwidth ≤ csR.width - csR.width * 0.05 * 2
      ∧ (sceneContentLayout csR stampSq none).1.bheight ≤ csR.height - csR.width * 0.05 * 2
      ∧ (sceneContentLayout csR stampSq none).1.bcenter.1 = 0
      ∧ (sceneContentLayout csR stampSq none).1.bcenter.2.1 = 0 :=
  ⟨Or.inl rfl,
   stamp_fit_margins csR stampSq none ⟨0, 10, 0, 10, 0, 3.5⟩ (Or.inl rfl)
     (by norm_num [stampSq, Geometry.bbox, shapesBB2, Shape2D.bb2, Path2D.bb2,
        ptsBB2, mergeO, merge2, pointBB])
     (by norm_num) (by norm_num) (by norm_num [csR]) (by norm_num [csR])⟩

/-- C7 counterexample: with width 10 and height 100 the code computes both
margins from the width, so the fitted relief (final height 99) does NOT
fit inside the footprint shrunk by 5% of the HEIGHT on each side
(99 > 100 - 2 * 5 = 90), refuting the claim as stated. -/
theorem stamp_fit_height_margin_cex :
    cs7x.shape = ShapeKind.rectangle
    ∧ 0 < cs7x.width ∧ 0 < cs7x.height
    ∧ ¬ ((sceneContentLayout cs7x stamp7x none).1.bheight
          ≤ cs7x.height - cs7x.height * 0.05 * 2) := by
  refine ⟨rfl, by norm_num [cs7x], by norm_num [cs7x], ?_⟩
  have hbh : (sceneContentLayout cs7x stamp7x none).1.bheight = 99 := by
    norm_num [sceneContentLayout, cs7x, stamp7x, Geometry.bwidth, Geometry.bheight,
      Geometry.bcenter, Geometry.bbox, shapesBB2, Shape2D.bb2, Path2D.bb2,
      ptsBB2, mergeO, merge2, pointBB]
  rw [hbh]
  norm_num [cs7x]

end CookieBot
